import Mathlib

/-!
Shallow embedding of SC.SparseArray
(src/frameworks/runtime/system/sparse_array.js) and proofs of the spec
claims about it.

The collection state carries the three instance fields the source reads and
writes (the lazily created cache array, the optional resolved length, the
window size) together with the attached delegate.  Every operation is a pure
function from state to state, returning in addition the list of externally
observable events it emits: the delegate-callback invocations and the
change-notification calls.  Operations that can raise a JavaScript runtime
error return an Except.

The delegate is modelled as a capability record: a flag per protocol method,
plus the authorization predicate (the only delegate method whose return value
the source consults before completing).  Delegate callbacks are recorded as
events and do not mutate the collection inside the call: this matches the
asynchronous-response half of the protocol, under which a fetch or length
request leaves the collection unchanged until the delegate later calls back
in through the provide entry points.
-/

namespace SC

/-- A JavaScript value as stored in the sparse array: the primitive
`undefined`, the primitive `null`, or a proper element drawn from `α`. -/
inductive JVal (α : Type) where
  | undef
  | null
  | val (a : α)
deriving DecidableEq, Repr

/-- The cache array `_sa_content`.  A JavaScript array with holes: position
`i` holds `none` for a hole and `some v` for a stored value (which may itself
be the stored value `undefined`). -/
abbrev Cache (α : Type) := List (Option (JVal α))

/-- Reading `content[i]` on a JavaScript array: a hole, an out-of-bounds
index, and a stored `undefined` all read back as `undefined`. -/
def cacheRead {α : Type} (c : Cache α) (i : Nat) : JVal α :=
  (c.getD i none).getD JVal.undef

/-- Writing `content[i] = v` on a JavaScript array: extends the array with
holes when `i` is at or beyond the current length, then stores `v` at `i`. -/
def cacheWrite {α : Type} (c : Cache α) (i : Nat) (v : JVal α) : Cache α :=
  let c := if c.length ≤ i then c ++ List.replicate (i + 1 - c.length) none else c
  c.set i (some v)

/-- JavaScript runtime errors the embedded code can raise. -/
inductive JsErr where
  | referenceError
  | typeError
deriving DecidableEq, Repr

/-- An argument of a delegate-callback invocation: the collection instance
itself (`this`) or a numeric index. -/
inductive CallArg where
  | self
  | idx (n : Nat)
deriving DecidableEq, Repr

/-- Externally observable events: delegate callbacks issued and
change notifications emitted. -/
inductive Event where
  | requestLength
  | requestRange (start len : Nat)
  | requestIndexCall (args : List CallArg)
  | willChangeLength
  | didChangeLength
  | contentDidChange (range : Option (Nat × Nat))
  | didReset
deriving DecidableEq, Repr

/-- The attached delegate, as a capability record.  A flag per protocol
method records whether the delegate object has that method;
`shouldReplaceImpl` is the result of `sparseArrayShouldReplace`, the one
delegate method whose return value the source consults.  A delegate exposes
only the protocol methods, so it has no `del` property of its own. -/
structure Delegate (α : Type) where
  hasRequestLength : Bool := false
  hasRequestRange : Bool := false
  hasRequestIndex : Bool := false
  hasIndexOf : Bool := false
  hasShouldReplace : Bool := false
  shouldReplaceImpl : Nat → Nat → List (JVal α) → Bool := fun _ _ _ => false
  hasDidReset : Bool := false

/-- The SparseArray instance state: `_sa_content` (null until first use),
`_length` (null until resolved), `rangeWindowSize`, and the delegate. -/
structure SAState (α : Type) where
  content : Option (Cache α) := none
  lengthVal : Option Int := none
  rangeWindowSize : Nat := 1
  delegate : Option (Delegate α) := none

/-- The `length` computed property (source lines 56-62): when a delegate is
attached, `_length` is null and the delegate implements
`sparseArrayDidRequestLength`, invoke it; then return `_length || 0`.
In the model the request is recorded as an event and `_length` is unchanged
within the call (asynchronous response), so the result is `_length || 0` on
the incoming state. -/
def lengthGet {α : Type} (st : SAState α) : SAState α × List Event × Int :=
  let evs :=
    match st.delegate with
    | some d =>
        if st.lengthVal.isNone ∧ d.hasRequestLength then [Event.requestLength] else []
    | none => []
  (st, evs, st.lengthVal.getD 0)

/-- Method requestIndex(idx) (source lines 122-142).  With no delegate it returns
at once.  Otherwise it reads `rangeWindowSize` into `len` and, when
`len > 1`, evaluates `Math.floor(start / windowSize)` — but `windowSize` is
an undeclared identifier (no such binding exists in the source file or the
repository), so that read raises a ReferenceError.  When `len ≤ 1` it
clamps `len` to 1 and dispatches: `sparseArrayDidRequestRange(this, range)`
when present, else `sparseArrayDidRequestIndex(start + len)` once per index
of the window counting down, each call passing the bare index as its only
argument. -/
def requestIndex {α : Type} (st : SAState α) (idx : Nat) :
    Except JsErr (SAState α × List Event) :=
  match st.delegate with
  | none => Except.ok (st, [])
  | some del =>
      if st.rangeWindowSize > 1 then Except.error JsErr.referenceError
      else
        let len := if st.rangeWindowSize < 1 then 1 else st.rangeWindowSize
        let start := idx
        if del.hasRequestRange then
          Except.ok (st, [Event.requestRange start len])
        else if del.hasRequestIndex then
          Except.ok (st, (List.range len).reverse.map
            (fun k => Event.requestIndexCall [CallArg.idx (start + k)]))
        else Except.ok (st, [])

/-- Method objectAt(idx) (source lines 103-111): lazily create the cache, read
`content[idx]`; when the read yields `undefined` call `requestIndex` and
re-read (in case the delegate provided synchronously), then return. -/
def objectAt {α : Type} [DecidableEq α] (st : SAState α) (idx : Nat) :
    Except JsErr (SAState α × List Event × JVal α) :=
  let content := st.content.getD []
  let st1 : SAState α := { st with content := some content }
  let ret := cacheRead content idx
  if ret = JVal.undef then
    match requestIndex st1 idx with
    | Except.error e => Except.error e
    | Except.ok (st2, evs) =>
        Except.ok (st2, evs, cacheRead (st2.content.getD []) idx)
  else
    Except.ok (st1, [], ret)

/-- Method provideObjectsInRange(range, array) (source lines 154-161): lazily
create the cache, copy `array[k]` into `content[start + k]` for each `k`
below `range.length` (the source loop counts down; the writes touch distinct
indices so ascending order yields the same array), then emit one content
change notification. -/
def provideObjectsInRange {α : Type} (st : SAState α) (start len : Nat)
    (array : List (JVal α)) : SAState α × List Event :=
  let content := st.content.getD []
  let content := (List.range len).foldl
    (fun c k => cacheWrite c (start + k) (array.getD k JVal.undef)) content
  ({ st with content := some content }, [Event.contentDidChange none])

/-- Method provideObjectAtIndex(index, object) (source lines 175-180): delegates
to `provideObjectsInRange` with a one-element array and a length-1 range. -/
def provideObjectAtIndex {α : Type} (st : SAState α) (index : Nat)
    (object : JVal α) : SAState α × List Event :=
  provideObjectsInRange st index 1 [object]

/-- Modelled from the spec: `SC.maxRange`, framework code not under src/.
A Range `(start, length)` is the half-open interval `[start, start +
length)`, so its exclusive upper bound is `start + length`. -/
def maxRange (start len : Nat) : Nat :=
  start + len

/-- Method objectsDidChangeInRange(range) (source lines 190-207).  When a
cache exists: if `range.start === 0` and `SC.maxRange(range) >=
content.length` the whole cache is dropped (`_sa_content = null`);
otherwise the loop sets `content[loc] = undefined` for `loc` from
`min(start + length, content.length) - 1` down to `start`.  Then one
content change notification carrying the range is emitted. -/
def objectsDidChangeInRange {α : Type} (st : SAState α) (start len : Nat) :
    SAState α × List Event :=
  let st1 :=
    match st.content with
    | none => st
    | some content =>
        if start = 0 ∧ content.length ≤ maxRange start len then
          { st with content := none }
        else
          let stop := min (start + len) content.length
          let cleared := content.mapIdx
            (fun j v => if start ≤ j ∧ j < stop then some JVal.undef else v)
          { st with content := some cleared }
  (st1, [Event.contentDidChange (some (start, len))])

/-- Semantics of `content.indexOf(obj)` on a JavaScript array: first index whose cell is
present (holes are skipped) and strictly equal to `obj`, else -1. -/
def arrayIndexOf {α : Type} [DecidableEq α] (c : Cache α) (obj : JVal α) :
    Int :=
  go c 0
where
  go : Cache α → Nat → Int
    | [], _ => -1
    | none :: rest, i => go rest (i + 1)
    | some v :: rest, i => if v = obj then (i : Int) else go rest (i + 1)

/-- Method indexOf(obj) (source lines 217-226).  When a delegate is attached and
implements `sparseArrayDidRequestIndexOf`, the source evaluates
`del.del.sparseArrayDidRequestIndexOf(this, obj)`: the delegate exposes only
the protocol methods, so `del.del` is `undefined` and the method access on it
raises a TypeError.  Otherwise: lazily create the cache and return
`content.indexOf(obj)`. -/
def indexOf {α : Type} [DecidableEq α] (st : SAState α) (obj : JVal α) :
    Except JsErr (SAState α × Int) :=
  match st.delegate with
  | some del =>
      if del.hasIndexOf then Except.error JsErr.typeError
      else
        let content := st.content.getD []
        Except.ok ({ st with content := some content }, arrayIndexOf content obj)
  | none =>
      let content := st.content.getD []
      Except.ok ({ st with content := some content }, arrayIndexOf content obj)

/-- Modelled from the spec: `content.replace(idx, amt, objects)`, the Array
replace primitive of the runtime framework, not under src/.  Splice the
backing array at `idx`, removing `amt` elements and inserting `objects` in
order, shifting subsequent elements by `objects.length - amt`; like the
JavaScript splice the spec names, the start position and the removal count
clamp to the array length.  Inserted cells are present values, never
holes. -/
def arrayReplace {α : Type} (c : Cache α) (idx amt : Nat)
    (objects : List (JVal α)) : Cache α :=
  let start := min idx c.length
  c.take start ++ objects.map some ++ c.drop (start + amt)

/-- The authorization test of `replace` (source lines 245-251): with a
delegate attached the edit proceeds only when the delegate has
`sparseArrayShouldReplace` and that call returns a truthy value; with no
delegate the edit is implicitly authorized. -/
def replaceAuthorized {α : Type} (st : SAState α) (idx amt : Nat)
    (objects : List (JVal α)) : Bool :=
  match st.delegate with
  | some del => del.hasShouldReplace && del.shouldReplaceImpl idx amt objects
  | none => true

/-- Method replace(idx, amt, objects) (source lines 241-268).  When the
authorization test fails, the method returns with no change and no
notification.  When authorized: lazily create the cache, splice it, and when
`delta = objects.length - amt` is nonzero and `_length` is resolved, bump
`_length` by `delta` inside one propertyWillChange/propertyDidChange pair;
finally emit one content change notification. -/
def replace {α : Type} (st : SAState α) (idx amt : Nat)
    (objects : List (JVal α)) : SAState α × List Event :=
  if replaceAuthorized st idx amt objects then
    let content := st.content.getD []
    let content := arrayReplace content idx amt objects
    let delta : Int := (objects.length : Int) - (amt : Int)
    let st1 : SAState α := { st with content := some content }
    if delta ≠ 0 ∧ st1.lengthVal.isSome then
      ({ st1 with lengthVal := st1.lengthVal.map (· + delta) },
       [Event.willChangeLength, Event.didChangeLength, Event.contentDidChange none])
    else
      (st1, [Event.contentDidChange none])
  else
    (st, [])

/-- Modelled from the spec: `invokeDelegateMethod`, the delegate-support
mixin helper not under src/.  The onReset callback is invoked exactly when
a delegate is attached and implements it. -/
def invokeDidReset {α : Type} (d : Option (Delegate α)) : List Event :=
  match d with
  | some d => if d.hasDidReset then [Event.didReset] else []
  | none => []

/-- Method reset() (source lines 274-280): drop the cache and the resolved
length, emit one content change notification, then invoke
`sparseArrayDidReset` on the delegate via invokeDelegateMethod. -/
def reset {α : Type} (st : SAState α) : SAState α × List Event :=
  let st1 : SAState α := { st with content := none, lengthVal := none }
  (st1, [Event.contentDidChange none] ++ invokeDidReset st.delegate)

/-! Concrete fixtures used by counterexamples and witnesses. -/

/-- A delegate implementing only `sparseArrayDidRequestRange`. -/
def delRange : Delegate Nat := { hasRequestRange := true }

/-- A delegate implementing only `sparseArrayDidRequestIndex`. -/
def delIndex : Delegate Nat := { hasRequestIndex := true }

/-- A delegate implementing only `sparseArrayDidRequestIndexOf`. -/
def delLookup : Delegate Nat := { hasIndexOf := true }

/-- A delegate implementing `sparseArrayShouldReplace` and vetoing every
edit. -/
def delVeto : Delegate Nat :=
  { hasShouldReplace := true, shouldReplaceImpl := fun _ _ _ => false }

/-- A delegate implementing `sparseArrayShouldReplace` and approving every
edit. -/
def delApprove : Delegate Nat :=
  { hasShouldReplace := true, shouldReplaceImpl := fun _ _ _ => true }

/-- A five-element fully populated cache, as in the length-delta example. -/
def cacheFive : Cache Nat :=
  [some (JVal.val 10), some (JVal.val 11), some (JVal.val 12),
   some (JVal.val 13), some (JVal.val 14)]

/-- C1: the claim says a read miss at index 7 with rangeWindowSize 5 and a
range-capable delegate requests the aligned window (5, 5).  The code instead
evaluates the undeclared identifier `windowSize` on that path and raises a
ReferenceError, so no request is issued at all; only the windowSize ≤ 1
branch behaves as claimed, requesting (idx, 1). -/
theorem C1_window_miss_raises_referenceError :
    requestIndex ({ rangeWindowSize := 5, delegate := some delRange } :
        SAState Nat) 7 = Except.error JsErr.referenceError
    ∧ requestIndex ({ rangeWindowSize := 1, delegate := some delRange } :
        SAState Nat) 7
      = Except.ok ({ rangeWindowSize := 1, delegate := some delRange },
          [Event.requestRange 7 1]) :=
  ⟨rfl, rfl⟩

/-- A populated cache with a hole at index 0, for the indexOf fallback. -/
def stScan : SAState Nat :=
  { content := some [none, some (JVal.val 4), some (JVal.val 7)]
    delegate := some delRange }

/-- C5: the claim says that with a delegate implementing
`sparseArrayDidRequestIndexOf`, indexOf returns the delegate result.  The
code instead evaluates `del.del.sparseArrayDidRequestIndexOf`, and `del.del`
is undefined, so the call raises a TypeError.  The fallback half of the
claim does hold: without the capability, indexOf is a linear scan of the
cache (holes skipped), with no fetch issued. -/
theorem C5_indexOf_delegate_raises_typeError :
    indexOf ({ delegate := some delLookup } : SAState Nat) (JVal.val 1)
      = Except.error JsErr.typeError
    ∧ indexOf stScan (JVal.val 7) = Except.ok (stScan, 2) :=
  ⟨rfl, rfl⟩

/-- C6: the claim says a miss served by a fetchIndex-only delegate invokes
the callback once per index of the coalesced window, passing the collection
as first argument.  With a coalesced window (rangeWindowSize 2) the code
raises a ReferenceError (undeclared `windowSize`) before any invocation;
with window size 1 it makes the single invocation but passes the bare index
as the only argument, not the collection. -/
theorem C6_fetchIndex_wrong_call_shape :
    requestIndex ({ rangeWindowSize := 2, delegate := some delIndex } :
        SAState Nat) 4 = Except.error JsErr.referenceError
    ∧ requestIndex ({ rangeWindowSize := 1, delegate := some delIndex } :
        SAState Nat) 4
      = Except.ok ({ rangeWindowSize := 1, delegate := some delIndex },
          [Event.requestIndexCall [CallArg.idx 4]]) :=
  ⟨rfl, rfl⟩

/-- C2 counterexample: on a fresh collection with a delegate attached that
does not implement `sparseArrayShouldReplace`, replace(0, 0, [1]) leaves the
cache untouched and emits nothing — whereas with no delegate the same call
splices the cache and emits the content change notification.  The edit is
therefore rejected, not implicitly authorized, when a capability-less
delegate is attached. -/
theorem C2_missing_capability_is_not_authorized :
    replace ({ delegate := some delRange } : SAState Nat) 0 0 [JVal.val 1]
      = ({ delegate := some delRange }, [])
    ∧ replace ({} : SAState Nat) 0 0 [JVal.val 1]
      = ({ content := some [some (JVal.val 1)] },
          [Event.contentDidChange none]) :=
  ⟨rfl, rfl⟩

/-- An empty collection with window size 1 and a range-capable delegate. -/
def stWin1 : SAState Nat :=
  { rangeWindowSize := 1
    delegate := some delRange }

/-- C9 counterexample: populate index 3 with the stored value `undefined`
on a collection with a range-capable delegate and window size 1.  The claim
says the subsequent objectAt(3) returns the populated value without issuing
a new fetch; instead the stored `undefined` is indistinguishable from
absence, so objectAt(3) issues the fetch request (3, 1) again. -/
theorem C9_populated_undefined_refetches :
    (provideObjectAtIndex stWin1 3 JVal.undef).1.content
      = some [none, none, none, some JVal.undef]
    ∧ objectAt (provideObjectAtIndex stWin1 3 JVal.undef).1 3
      = Except.ok ((provideObjectAtIndex stWin1 3 JVal.undef).1,
          [Event.requestRange 3 1], JVal.undef) :=
  ⟨rfl, rfl⟩

/-- C2 as amended: with a provider attached that does not implement
`sparseArrayShouldReplace`, replace is rejected outright — the state
(cache, length) is returned unchanged and no notification is emitted; only
the absence of any provider implicitly authorizes the edit. -/
theorem C2_replace_without_capability_rejected {α : Type} (st : SAState α)
    (del : Delegate α) (idx amt : Nat) (objects : List (JVal α))
    (hdel : st.delegate = some del) (hcap : del.hasShouldReplace = false) :
    replace st idx amt objects = (st, []) := by
  simp [replace, replaceAuthorized, hdel, hcap]

/-- A populated length-5 collection with the fetch-only delegate. -/
def stFiveFetch : SAState Nat :=
  { content := some cacheFive
    lengthVal := some 5
    delegate := some delRange }

/-- A populated length-5 collection with the always-vetoing delegate. -/
def stFiveVeto : SAState Nat :=
  { content := some cacheFive
    lengthVal := some 5
    delegate := some delVeto }

/-- Witness for C2: a concrete fetch-only delegate lacks
`sparseArrayShouldReplace`, and replace(1, 2, [8]) on a populated collection
returns it unchanged with no events. -/
theorem C2_replace_without_capability_rejected_witness :
    replace stFiveFetch 1 2 [JVal.val 8] = (stFiveFetch, []) :=
  C2_replace_without_capability_rejected _ delRange 1 2 [JVal.val 8] rfl rfl

/-- C3: when the attached provider's `sparseArrayShouldReplace` returns
falsy, replace returns the state unchanged — same cache, same resolved
length — and emits no notification at all. -/
theorem C3_vetoed_replace_changes_nothing {α : Type} (st : SAState α)
    (del : Delegate α) (idx amt : Nat) (objects : List (JVal α))
    (hdel : st.delegate = some del)
    (hveto : del.shouldReplaceImpl idx amt objects = false) :
    replace st idx amt objects = (st, []) := by
  simp [replace, replaceAuthorized, hdel, hveto]

/-- Witness for C3: the always-vetoing delegate leaves a populated
collection untouched and silent under replace(2, 1, [8, 9]). -/
theorem C3_vetoed_replace_changes_nothing_witness :
    replace stFiveVeto 2 1 [JVal.val 8, JVal.val 9] = (stFiveVeto, []) :=
  C3_vetoed_replace_changes_nothing _ delVeto 2 1 [JVal.val 8, JVal.val 9] rfl rfl

/-- Splicing shifts every cell that sat at or beyond the removed region by
`objects.length - amt` positions. -/
theorem arrayReplace_shift {α : Type} (c : Cache α) (idx amt : Nat)
    (objects : List (JVal α)) (j : Nat)
    (h1 : idx + amt ≤ j) (h2 : j < c.length) :
    (arrayReplace c idx amt objects).getD (j - amt + objects.length) none
      = c.getD j none := by
  have hstart : min idx c.length = idx := by omega
  have hsplit : arrayReplace c idx amt objects
      = (c.take idx ++ objects.map some) ++ c.drop (idx + amt) := by
    simp [arrayReplace, hstart, List.append_assoc]
  have hlen12 : (c.take idx ++ objects.map some).length = idx + objects.length := by
    rw [List.length_append, List.length_take, List.length_map, hstart]
  rw [hsplit, List.getD_eq_getElem?_getD, List.getD_eq_getElem?_getD,
    List.getElem?_append_right (by rw [hlen12]; omega), hlen12,
    List.getElem?_drop]
  have hidx2 : idx + amt + (j - amt + objects.length - (idx + objects.length)) = j := by
    omega
  rw [hidx2]

/-- C4: an authorized replace on a collection with resolved length L and
nonzero delta sets the resolved length to L + delta inside a single
propertyWillChange/propertyDidChange pair (one before/after pair followed by
the one content change notification), and every cached cell previously at
an index at or beyond idx + amt moves to the index shifted by delta. -/
theorem C4_replace_updates_length_and_shifts {α : Type} (st : SAState α)
    (idx amt : Nat) (objects : List (JVal α)) (L : Int)
    (hauth : replaceAuthorized st idx amt objects = true)
    (hlen : st.lengthVal = some L)
    (hdelta : (objects.length : Int) - (amt : Int) ≠ 0) :
    (replace st idx amt objects).1.lengthVal
        = some (L + ((objects.length : Int) - (amt : Int)))
    ∧ (replace st idx amt objects).2
        = [Event.willChangeLength, Event.didChangeLength,
           Event.contentDidChange none]
    ∧ ∀ j, idx + amt ≤ j → j < (st.content.getD []).length →
        ((replace st idx amt objects).1.content.getD []).getD
            (j - amt + objects.length) none
          = (st.content.getD []).getD j none := by
  have hcontent : (replace st idx amt objects).1.content
      = some (arrayReplace (st.content.getD []) idx amt objects) := by
    simp [replace, hauth, hlen, hdelta]
  refine ⟨?_, ?_, ?_⟩
  · simp [replace, hauth, hlen, hdelta]
  · simp [replace, hauth, hlen, hdelta]
  · intro j hj hjlen
    rw [hcontent]
    exact arrayReplace_shift _ idx amt objects j hj hjlen

/-- A populated length-5 collection with no delegate. -/
def stFivePlain : SAState Nat :=
  { content := some cacheFive
    lengthVal := some 5 }

/-- Witness for C4, the spec example: replace(2, 1, [a, b]) on a populated
collection of resolved length 5 yields resolved length 6, one
length-property change pair plus the content change notification, and the
element formerly cached at index 3 now sits at index 4. -/
theorem C4_replace_updates_length_and_shifts_witness :
    (replace stFivePlain 2 1 [JVal.val 100, JVal.val 101]).1.lengthVal = some 6
    ∧ (replace stFivePlain 2 1 [JVal.val 100, JVal.val 101]).2
        = [Event.willChangeLength, Event.didChangeLength,
           Event.contentDidChange none]
    ∧ ((replace stFivePlain 2 1 [JVal.val 100, JVal.val 101]).1.content.getD
        []).getD 4 none = some (JVal.val 13) := by
  have h := C4_replace_updates_length_and_shifts stFivePlain 2 1
    [JVal.val 100, JVal.val 101] 5 rfl rfl (by decide)
  refine ⟨h.1, h.2.1, ?_⟩
  have h3 := h.2.2 3 (by decide) (by decide)
  exact h3.trans rfl

/-- Reading the cache produced by the invalidation loop: an index inside
the cleared strip that was in bounds reads back undefined; every other index
reads as before. -/
theorem cacheRead_mapIdx_ite {α : Type} (c : Cache α) (start stop j : Nat) :
    cacheRead (c.mapIdx fun i v =>
        if start ≤ i ∧ i < stop then some JVal.undef else v) j
      = if start ≤ j ∧ j < stop ∧ j < c.length then JVal.undef
        else cacheRead c j := by
  unfold cacheRead
  rw [List.getD_eq_getElem?_getD, List.getD_eq_getElem?_getD,
    List.getElem?_mapIdx]
  cases hcj : getElem? c j with
  | none =>
      have hlen : ¬ j < c.length := by
        intro hlt
        rw [List.getElem?_eq_getElem hlt] at hcj
        exact Option.noConfusion hcj
      rw [if_neg (by tauto)]
      simp
  | some v =>
      have hlt : j < c.length := by
        by_contra hbad
        rw [List.getElem?_eq_none (by omega)] at hcj
        exact Option.noConfusion hcj
      by_cases hg : start ≤ j ∧ j < stop
      · rw [if_pos ⟨hg.1, hg.2, hlt⟩]
        simp [hg]
      · rw [if_neg (by tauto)]
        simp [hg]

/-- C8: objectsDidChangeInRange leaves the resolved length untouched,
emits exactly one content change notification scoped to the range, makes
every read inside the half-open range come back absent, and leaves every
read outside unchanged — uniformly across the full-clear shortcut branch
and the entry-by-entry branch, which are therefore observably equivalent at
the read level. -/
theorem C8_invalidate_scoped {α : Type} (st : SAState α) (start len : Nat) :
    (objectsDidChangeInRange st start len).1.lengthVal = st.lengthVal
    ∧ (objectsDidChangeInRange st start len).2
        = [Event.contentDidChange (some (start, len))]
    ∧ (∀ j, start ≤ j → j < start + len →
        cacheRead ((objectsDidChangeInRange st start len).1.content.getD []) j
          = JVal.undef)
    ∧ (∀ j, j < start ∨ start + len ≤ j →
        cacheRead ((objectsDidChangeInRange st start len).1.content.getD []) j
          = cacheRead (st.content.getD []) j) := by
  rcases hc : st.content with _ | c
  · refine ⟨?_, ?_, ?_, ?_⟩ <;> simp [objectsDidChangeInRange, maxRange, hc, cacheRead]
  · by_cases hs : start = 0 ∧ c.length ≤ start + len
    · obtain ⟨h0, hlen0⟩ := hs
      subst h0
      have hlen : c.length ≤ len := by omega
      refine ⟨?_, ?_, ?_, ?_⟩
      · simp [objectsDidChangeInRange, maxRange, hc, hlen]
      · simp [objectsDidChangeInRange, maxRange, hc, hlen]
      · intro j h1 h2
        simp [objectsDidChangeInRange, maxRange, hc, hlen, cacheRead]
      · intro j hj
        have hjc : c.length ≤ j := by
          rcases hj with h | h <;> omega
        simp [objectsDidChangeInRange, maxRange, hc, hlen, cacheRead,
          List.getD_eq_getElem?_getD, List.getElem?_eq_none hjc]
    · have hmain : (objectsDidChangeInRange st start len).1.content
          = some (c.mapIdx fun i v =>
              if start ≤ i ∧ i < min (start + len) c.length then some JVal.undef
              else v) := by
        simp [objectsDidChangeInRange, maxRange, hc, hs]
      refine ⟨?_, ?_, ?_, ?_⟩
      · simp [objectsDidChangeInRange, maxRange, hc, hs]
      · simp [objectsDidChangeInRange, maxRange, hc]
      · intro j h1 h2
        rw [hmain]
        simp only [Option.getD_some]
        rw [cacheRead_mapIdx_ite]
        by_cases hjl : j < c.length
        · rw [if_pos ⟨h1, by omega, hjl⟩]
        · rw [if_neg (by omega)]
          unfold cacheRead
          rw [List.getD_eq_getElem?_getD, List.getElem?_eq_none (by omega)]
          rfl
      · intro j hj
        rw [hmain]
        simp only [Option.getD_some]
        rw [cacheRead_mapIdx_ite, if_neg (by rcases hj with h | h <;> omega)]


/-- Witness for C8: invalidating (1, 2) on the populated length-5
collection keeps length 5, emits the scoped notification, clears index 1,
and leaves index 0 reading as before. -/
theorem C8_invalidate_scoped_witness :
    (objectsDidChangeInRange stFivePlain 1 2).1.lengthVal = stFivePlain.lengthVal
    ∧ (objectsDidChangeInRange stFivePlain 1 2).2
        = [Event.contentDidChange (some (1, 2))]
    ∧ cacheRead ((objectsDidChangeInRange stFivePlain 1 2).1.content.getD []) 1
        = JVal.undef
    ∧ cacheRead ((objectsDidChangeInRange stFivePlain 1 2).1.content.getD []) 0
        = cacheRead (stFivePlain.content.getD []) 0 := by
  have h := C8_invalidate_scoped stFivePlain 1 2
  exact ⟨h.1, h.2.1, h.2.2.1 1 (by decide) (by decide),
    h.2.2.2 0 (Or.inl (by decide))⟩

/-- C7: after reset every read comes back absent (for any index, not just
previously populated ones), the resolved length is cleared so the next
length query re-issues the delegate length request when the capability is
present, reset emits exactly one content change notification, and the reset
callback fires exactly when the delegate implements it.  Stated for window
sizes at most 1; at larger windows the post-reset read instead hits the
undeclared-identifier failure recorded under the windowing claim. -/
theorem C7_reset_clears_and_retriggers {α : Type} [DecidableEq α] (st : SAState α)
    (del : Delegate α) (hdel : st.delegate = some del)
    (hw : st.rangeWindowSize ≤ 1) :
    (∀ i, ∃ st2 evs, objectAt (reset st).1 i = Except.ok (st2, evs, JVal.undef))
    ∧ (reset st).1.lengthVal = none
    ∧ ((lengthGet (reset st).1).2.1
        = if del.hasRequestLength then [Event.requestLength] else [])
    ∧ (lengthGet (reset st).1).2.2 = 0
    ∧ (reset st).2 = [Event.contentDidChange none]
        ++ (if del.hasDidReset then [Event.didReset] else []) := by
  refine ⟨?_, ?_, ?_, ?_, ?_⟩
  · intro i
    cases hRR : del.hasRequestRange <;> cases hRI : del.hasRequestIndex <;>
      simp [objectAt, requestIndex, reset, hdel, cacheRead, hRR, hRI,
        Nat.not_lt.mpr hw]
  · simp [reset]
  · simp [lengthGet, reset, hdel]
  · simp [lengthGet, reset]
  · simp [reset, invokeDidReset, hdel]

/-- Reading back the index just written into the cache. -/
theorem cacheRead_cacheWrite_self {α : Type} (c : Cache α) (i : Nat) (v : JVal α) :
    cacheRead (cacheWrite c i v) i = v := by
  unfold cacheRead cacheWrite
  by_cases h : c.length ≤ i
  · rw [if_pos h]
    have hlen : i < (c ++ List.replicate (i + 1 - c.length) none).length := by
      rw [List.length_append, List.length_replicate]
      omega
    rw [List.getD_eq_getElem?_getD, List.getElem?_set_self (by simpa using hlen)]
    rfl
  · rw [if_neg h]
    rw [List.getD_eq_getElem?_getD, List.getElem?_set_self (by omega)]
    rfl

/-- objectAt on a populated index returns the cached value with no events
and no state change. -/
theorem objectAt_hit {α : Type} [DecidableEq α] (st : SAState α) (idx : Nat)
    (c : Cache α) (hc : st.content = some c)
    (hv : cacheRead c idx ≠ JVal.undef) :
    objectAt st idx = Except.ok (st, [], cacheRead c idx) := by
  obtain ⟨co, lv, w, d⟩ := st
  simp only at hc
  subst hc
  simp [objectAt, hv]

/-- C9 as amended: once provideObjectAtIndex(i, v) has been applied for
any value v other than `undefined` — a stored `null` included — objectAt(i)
returns v, issues no fetch request (no events at all), and leaves the state
unchanged.  A stored `undefined` is excluded: the cache cannot distinguish
it from absence, as the counterexample shows. -/
theorem C9_provide_then_read {α : Type} [DecidableEq α] (st : SAState α)
    (i : Nat) (v : JVal α) (hv : v ≠ JVal.undef) :
    objectAt (provideObjectAtIndex st i v).1 i
      = Except.ok ((provideObjectAtIndex st i v).1, [], v) := by
  have hcontent : (provideObjectAtIndex st i v).1.content
      = some (cacheWrite (st.content.getD []) i v) := by
    have h1 : List.range 1 = [0] := rfl
    simp [provideObjectAtIndex, provideObjectsInRange, h1]
  have hread : cacheRead (cacheWrite (st.content.getD []) i v) i = v :=
    cacheRead_cacheWrite_self _ i v
  have h := objectAt_hit (provideObjectAtIndex st i v).1 i _ hcontent
    (by rw [hread]; exact hv)
  rw [h, hread]

/-- Witness for C9: providing `null` at index 2 and reading it back yields
`null` with no fetch events. -/
theorem C9_provide_then_read_witness :
    objectAt (provideObjectAtIndex stWin1 2 JVal.null).1 2
      = Except.ok ((provideObjectAtIndex stWin1 2 JVal.null).1, [], JVal.null) :=
  C9_provide_then_read stWin1 2 JVal.null (by decide)

/-- requestIndex cannot raise when no delegate is attached or the window
size is at most 1, and it never mutates the state. -/
theorem requestIndex_ok_of_small_window {α : Type} (st : SAState α) (idx : Nat)
    (hsafe : st.delegate = none ∨ st.rangeWindowSize ≤ 1) :
    ∃ evs, requestIndex st idx = Except.ok (st, evs) := by
  rcases hd : st.delegate with _ | d
  · exact ⟨[], by simp [requestIndex, hd]⟩
  · rcases hsafe with hdel | hw
    · rw [hd] at hdel
      exact Option.noConfusion hdel
    · cases hRR : d.hasRequestRange <;> cases hRI : d.hasRequestIndex <;>
      exact ⟨_, by
        simp only [requestIndex, hd]
        rw [if_neg (show ¬ st.rangeWindowSize > 1 by omega), hRR, hRI]
        rfl⟩

/-- objectAt on an unpopulated index returns `undefined` after recording
the fetch events, whenever the miss path cannot hit the undeclared
identifier. -/
theorem objectAt_miss {α : Type} [DecidableEq α] (st : SAState α) (idx : Nat)
    (hmiss : cacheRead (st.content.getD []) idx = JVal.undef)
    (hsafe : st.delegate = none ∨ st.rangeWindowSize ≤ 1) :
    ∃ evs, objectAt st idx
      = Except.ok ({ st with content := some (st.content.getD []) }, evs,
          JVal.undef) := by
  obtain ⟨evs, hreq⟩ := requestIndex_ok_of_small_window
    { st with content := some (st.content.getD []) } idx
    (by rcases hsafe with h | h
        · exact Or.inl h
        · exact Or.inr h)
  exact ⟨evs, by simp [objectAt, hmiss, hreq]⟩

/-- C10: objectAt performs no bounds check at all — on any state whose
cache has no entry at the index (length unresolved, zero, or smaller than
the index alike) it returns absent without raising, provided the miss path
avoids the undeclared-identifier failure of the windowing claim; and the
length query returns 0 while the length is unresolved, in particular when
no delegate length capability is present. -/
theorem C10_read_never_out_of_range {α : Type} [DecidableEq α] (st : SAState α)
    (idx : Nat)
    (hmiss : cacheRead (st.content.getD []) idx = JVal.undef)
    (hsafe : st.delegate = none ∨ st.rangeWindowSize ≤ 1) :
    (∃ evs, objectAt st idx
        = Except.ok ({ st with content := some (st.content.getD []) }, evs,
            JVal.undef))
    ∧ (st.lengthVal = none → (lengthGet st).2.2 = 0) := by
  refine ⟨objectAt_miss st idx hmiss hsafe, ?_⟩
  intro hnone
  simp [lengthGet, hnone]

/-- Witness for C10: reading index 99 of a fresh empty collection (length
unresolved, hence 0) returns absent without error, and the length query
returns 0. -/
theorem C10_read_never_out_of_range_witness :
    (∃ evs, objectAt ({} : SAState Nat) 99
        = Except.ok ({ content := some [] }, evs, JVal.undef))
    ∧ (lengthGet ({} : SAState Nat)).2.2 = 0 := by
  have h := C10_read_never_out_of_range ({} : SAState Nat) 99 (by decide)
    (Or.inl rfl)
  exact ⟨h.1, h.2 rfl⟩


/-- A delegate implementing the length request, the range fetch, and the
reset callback. -/
def delFull : Delegate Nat :=
  { hasRequestLength := true
    hasRequestRange := true
    hasDidReset := true }

/-- A populated length-5 collection with window size 1 and `delFull`. -/
def stFull : SAState Nat :=
  { content := some cacheFive
    lengthVal := some 5
    rangeWindowSize := 1
    delegate := some delFull }

/-- Witness for C7: resetting the populated collection makes index 2 read
absent, unresolves the length, re-issues the length request on the next
length query which returns 0, and emits the content change notification
followed by the reset callback. -/
theorem C7_reset_clears_and_retriggers_witness :
    (∃ st2 evs, objectAt (reset stFull).1 2 = Except.ok (st2, evs, JVal.undef))
    ∧ (reset stFull).1.lengthVal = none
    ∧ (lengthGet (reset stFull).1).2.1 = [Event.requestLength]
    ∧ (lengthGet (reset stFull).1).2.2 = 0
    ∧ (reset stFull).2 = [Event.contentDidChange none, Event.didReset] := by
  have h := C7_reset_clears_and_retriggers stFull delFull rfl (by decide)
  exact ⟨h.1 2, h.2.1, h.2.2.1, h.2.2.2.1, h.2.2.2.2⟩

end SC
